import Mathlib

/-!
# SerialUI BLESerial: verification of the byte queue and TX pacing machinery

Shallow embedding of the parts of `src/Arduino_libraries/BLESerial/src/`
(`RingBuffer.h`, `BLESerial.h`, `BLESerial.cpp`) that the specification's
claims are about, together with theorems settling those claims.

Machine integers are embedded as `Nat`, with `% 2 ^ 32` (resp. `% 65536`,
`% 256`) inserted exactly where the C code performs `uint32_t`
(resp. `uint16_t`, `uint8_t`) arithmetic that can wrap.
-/

namespace SerialUI

/-!
## RingBuffer (src/Arduino_libraries/BLESerial/src/RingBuffer.h)

The C++ template `RingBuffer<T, N>` keeps `T buffer[N]` with indices
`head`, `tail` and an element count `count`.  `N` is statically asserted
to be a power of two, so the source's index masking `x & (N - 1)`
coincides with `x % N`; the embedding writes `% N`.  The element type is
instantiated at `uint8_t` in `BLESerial.h` (the 4096-byte `rxBuf`/`txBuf`
queues), embedded as `Nat`.  The ESP32 critical-section macros do not
change the data state and are omitted.
-/

structure RingBufferState where
  buf   : Nat → Nat
  head  : Nat
  tail  : Nat
  count : Nat

namespace RingBuffer

/-- The freshly constructed buffer: `head = tail = count = 0`. -/
def empty : RingBufferState := { buf := fun _ => 0, head := 0, tail := 0, count := 0 }

/-- `memcpy(&buffer[dst], src, src.length * sizeof(T))`: overwrite the
index range starting at `dst` with the elements of `src`. -/
def writeSeg (buf : Nat → Nat) (dst : Nat) (src : List Nat) : Nat → Nat :=
  fun i => if dst ≤ i ∧ i - dst < src.length then src.getD (i - dst) 0 else buf i

/-- `RingBuffer::push(const T* data, size_t data_len, bool overwrite)`.
Returns the new state and the `size_t` return value of the C function. -/
def push (N : Nat) (s : RingBufferState) (data : List Nat) (overwrite : Bool) :
    RingBufferState × Nat :=
  if data.length = 0 then (s, 0) else
  let availableSpace := N - s.count
  if data.length > availableSpace ∧ overwrite = false then (s, 0) else
  -- Overwriting: advance tail to free up space
  let tail1 :=
    if data.length > availableSpace then
      (s.tail + (data.length - availableSpace)) % N
    else s.tail
  let buf1 :=
    if data.length = 1 then
      -- optimized single-element push: buffer[head] = *data
      writeSeg s.buf s.head data
    else
      let firstPart := min data.length (N - s.head)
      let b := writeSeg s.buf s.head (data.take firstPart)
      let secondPart := data.length - firstPart
      -- wrap around the buffer and write remaining bytes at the beginning
      if secondPart > 0 then writeSeg b 0 (data.drop firstPart) else b
  ({ buf := buf1,
     head := (s.head + data.length) % N,
     tail := tail1,
     count := min N (s.count + data.length) }, data.length)

/-- The two-segment read performed by `pop`/`peek`: `firstPart` elements
from `tail` on, then the remaining `total - firstPart` elements from the
start of the buffer. -/
def readSeg (buf : Nat → Nat) (tail firstPart total : Nat) : List Nat :=
  ((List.range firstPart).map fun i => buf (tail + i)) ++
  ((List.range (total - firstPart)).map fun i => buf i)

/-- `RingBuffer::pop(T* output, size_t len)`: new state and the bytes
copied out (the C return value is the length of that list). -/
def pop (N : Nat) (s : RingBufferState) (len : Nat) : RingBufferState × List Nat :=
  if len = 0 then (s, []) else
  if s.count = 0 then (s, []) else
  let charsToRead := min len s.count
  let firstPart := min charsToRead (N - s.tail)
  let out :=
    if charsToRead = 1 then [s.buf s.tail]
    else readSeg s.buf s.tail firstPart charsToRead
  let count1 := s.count - charsToRead
  -- reset tail & head when buffer becomes empty
  if count1 = 0 then ({ s with tail := 0, head := 0, count := 0 }, out)
  else ({ s with tail := (s.tail + charsToRead) % N, count := count1 }, out)

/-- `RingBuffer::peek(T* output, size_t len) const`: the method is
`const` and assigns no field, so the state component is the input state. -/
def peek (N : Nat) (s : RingBufferState) (len : Nat) : RingBufferState × List Nat :=
  if len = 0 then (s, []) else
  if s.count = 0 then (s, []) else
  let peekLen := min len s.count
  let firstPart := min peekLen (N - s.tail)
  (s, readSeg s.buf s.tail firstPart peekLen)

/-- `RingBuffer::consume(size_t len)`: new state and the count consumed. -/
def consume (N : Nat) (s : RingBufferState) (len : Nat) : RingBufferState × Nat :=
  if len = 0 then (s, 0) else
  if s.count = 0 then (s, 0) else
  let toConsume := min len s.count
  let count1 := s.count - toConsume
  if count1 = 0 then ({ s with tail := 0, head := 0, count := 0 }, toConsume)
  else ({ s with tail := (s.tail + toConsume) % N, count := count1 }, toConsume)

/-- `RingBuffer::clear()`. -/
def clear (s : RingBufferState) : RingBufferState :=
  { s with head := 0, tail := 0, count := 0 }

/-- The queue contents from oldest (at `tail`) to newest: element `i` of
the readout is `buffer[(tail + i) % N]`, for `i < count`. -/
def contents (N : Nat) (s : RingBufferState) : List Nat :=
  (List.range s.count).map fun i => s.buf ((s.tail + i) % N)

end RingBuffer

/-- One public operation on the byte queue. -/
inductive RBOp where
  | push (data : List Nat) (overwrite : Bool)
  | pop (len : Nat)
  | peek (len : Nat)
  | consume (len : Nat)
  | clear

/-- Apply one operation to the queue state. -/
def rbRun (N : Nat) (s : RingBufferState) : RBOp → RingBufferState
  | .push data ow => (RingBuffer.push N s data ow).1
  | .pop len => (RingBuffer.pop N s len).1
  | .peek len => (RingBuffer.peek N s len).1
  | .consume len => (RingBuffer.consume N s len).1
  | .clear => RingBuffer.clear s

/-- Run a sequence of queue operations from a starting state. -/
def rbRunAll (N : Nat) (s : RingBufferState) (ops : List RBOp) : RingBufferState :=
  ops.foldl (rbRun N) s

/-- The structural queue invariant claimed by the spec:
`0 ≤ count ≤ N`, `head < N`, `tail < N`, and an empty queue has
`head = tail = 0`. -/
def RBInv (N : Nat) (s : RingBufferState) : Prop :=
  s.count ≤ N ∧ s.head < N ∧ s.tail < N ∧ (s.count = 0 → s.head = 0 ∧ s.tail = 0)

instance (N : Nat) (s : RingBufferState) : Decidable (RBInv N s) := by
  unfold RBInv; infer_instance

lemma peek_fst (N : Nat) (s : RingBufferState) (len : Nat) :
    (RingBuffer.peek N s len).1 = s := by
  unfold RingBuffer.peek
  split
  · rfl
  · split <;> rfl

lemma rbRun_preserves_inv (N : Nat) (hN : 0 < N) (s : RingBufferState)
    (hs : RBInv N s) (op : RBOp) : RBInv N (rbRun N s op) := by
  obtain ⟨hc, hh, ht, hz⟩ := hs
  cases op with
  | push data ow =>
      show RBInv N (RingBuffer.push N s data ow).1
      unfold RingBuffer.push
      by_cases h0 : data.length = 0
      · rw [if_pos h0]; exact ⟨hc, hh, ht, hz⟩
      · rw [if_neg h0]
        by_cases hfull : data.length > N - s.count ∧ ow = false
        · rw [if_pos hfull]; exact ⟨hc, hh, ht, hz⟩
        · rw [if_neg hfull]
          refine ⟨?_, ?_, ?_, ?_⟩
          · show min N (s.count + data.length) ≤ N
            omega
          · show (s.head + data.length) % N < N
            exact Nat.mod_lt _ hN
          · show (if data.length > N - s.count then
                (s.tail + (data.length - (N - s.count))) % N else s.tail) < N
            split
            · exact Nat.mod_lt _ hN
            · exact ht
          · intro hcount
            exfalso
            have h1 : min N (s.count + data.length) = 0 := hcount
            omega
  | pop len =>
      show RBInv N (RingBuffer.pop N s len).1
      unfold RingBuffer.pop
      by_cases h0 : len = 0
      · rw [if_pos h0]; exact ⟨hc, hh, ht, hz⟩
      · rw [if_neg h0]
        by_cases hcz : s.count = 0
        · rw [if_pos hcz]; exact ⟨hc, hh, ht, hz⟩
        · rw [if_neg hcz]
          by_cases hfin : s.count - min len s.count = 0
          · rw [if_pos hfin]
            exact ⟨Nat.zero_le N, hN, hN, fun _ => ⟨rfl, rfl⟩⟩
          · rw [if_neg hfin]
            exact ⟨le_trans (Nat.sub_le _ _) hc, hh, Nat.mod_lt _ hN, fun h => absurd h hfin⟩
  | peek len =>
      show RBInv N (RingBuffer.peek N s len).1
      rw [peek_fst]
      exact ⟨hc, hh, ht, hz⟩
  | consume len =>
      show RBInv N (RingBuffer.consume N s len).1
      unfold RingBuffer.consume
      by_cases h0 : len = 0
      · rw [if_pos h0]; exact ⟨hc, hh, ht, hz⟩
      · rw [if_neg h0]
        by_cases hcz : s.count = 0
        · rw [if_pos hcz]; exact ⟨hc, hh, ht, hz⟩
        · rw [if_neg hcz]
          by_cases hfin : s.count - min len s.count = 0
          · rw [if_pos hfin]
            exact ⟨Nat.zero_le N, hN, hN, fun _ => ⟨rfl, rfl⟩⟩
          · rw [if_neg hfin]
            exact ⟨le_trans (Nat.sub_le _ _) hc, hh, Nat.mod_lt _ hN, fun h => absurd h hfin⟩
  | clear => exact ⟨Nat.zero_le N, hN, hN, fun _ => ⟨rfl, rfl⟩⟩

lemma rbRunAll_preserves_inv (N : Nat) (hN : 0 < N) :
    ∀ (ops : List RBOp) (s : RingBufferState), RBInv N s → RBInv N (rbRunAll N s ops) := by
  intro ops
  induction ops with
  | nil => intro s hs; simpa [rbRunAll] using hs
  | cons op rest ih =>
      intro s hs
      simpa [rbRunAll] using ih (rbRun N s op) (rbRun_preserves_inv N hN s hs op)

lemma writeSeg_hit (buf : Nat → Nat) (dst : Nat) (src : List Nat) (i : Nat)
    (h1 : dst ≤ i) (h2 : i - dst < src.length) :
    RingBuffer.writeSeg buf dst src i = src[i - dst] := by
  unfold RingBuffer.writeSeg
  rw [if_pos ⟨h1, h2⟩, List.getD_eq_getElem src 0 h2]

lemma writeSeg_miss (buf : Nat → Nat) (dst : Nat) (src : List Nat) (i : Nat)
    (h : ¬(dst ≤ i ∧ i - dst < src.length)) :
    RingBuffer.writeSeg buf dst src i = buf i := by
  unfold RingBuffer.writeSeg
  rw [if_neg h]

/-- **C7** (error_handling): pushing `k` bytes with `overwrite = false` when
`k` exceeds the free space `N - count` returns 0 and leaves the whole queue
state (contents, head, tail, count) exactly as it was — no partial write. -/
theorem push_no_space_leaves_queue_unchanged (N : Nat) (s : RingBufferState)
    (data : List Nat) (h : data.length > N - s.count) :
    RingBuffer.push N s data false = (s, 0) := by
  unfold RingBuffer.push
  rw [if_neg (show ¬data.length = 0 by omega)]
  exact if_pos ⟨h, rfl⟩

/-- Witness for C7: pushing 5 bytes into a capacity-4 queue holding 3. -/
theorem push_no_space_leaves_queue_unchanged_witness :
    RingBuffer.push 4 { buf := fun _ => 7, head := 2, tail := 3, count := 3 }
      [1, 2, 3, 4, 5] false =
    ({ buf := fun _ => 7, head := 2, tail := 3, count := 3 }, 0) :=
  push_no_space_leaves_queue_unchanged 4 _ [1, 2, 3, 4, 5] (by decide)

/-- Counterexample to **C2** as stated: pushing 5 bytes with overwrite into
an empty capacity-4 queue returns 5 (`data_len`), while only 4 elements are
actually stored in the queue, so the return value is not the count stored. -/
theorem push_return_not_count_stored :
    (RingBuffer.push 4 RingBuffer.empty [1, 2, 3, 4, 5] true).2 = 5 ∧
    ((RingBuffer.push 4 RingBuffer.empty [1, 2, 3, 4, 5] true).1).count = 4 ∧
    (5 : Nat) ≠ 4 := by
  refine ⟨by decide, by decide, by decide⟩

/-- **C2** (amended): `push` returns 0 for a zero-length request, returns 0
when overwrite is false and the length exceeds the free space, and otherwise
returns the full requested length `k` — even when `overwrite = true` and
`k > N`, in which case the queue retains only `min N (count + k) = N`
elements, fewer than the returned `k`. -/
theorem push_return_value (N : Nat) (s : RingBufferState) (data : List Nat)
    (ow : Bool) :
    (RingBuffer.push N s data ow).2 =
      (if data.length = 0 then 0
       else if data.length > N - s.count ∧ ow = false then 0
       else data.length) ∧
    ((RingBuffer.push N s data ow).1).count =
      (if data.length = 0 then s.count
       else if data.length > N - s.count ∧ ow = false then s.count
       else min N (s.count + data.length)) := by
  by_cases h0 : data.length = 0
  · simp [RingBuffer.push, h0]
  · by_cases h1 : data.length > N - s.count ∧ ow = false
    · simp [RingBuffer.push, h0, h1]
    · simp [RingBuffer.push, h0, h1]

/-- **C8** (invariants): starting from the freshly constructed queue, every
sequence of push/pop/peek/consume/clear operations keeps `count ≤ N`,
`head < N`, `tail < N`, and resets `head = tail = 0` whenever the queue
becomes empty; moreover `peek` never mutates the state, so repeated peeks
with no intervening mutation return identical bytes. -/
theorem queue_invariant_and_peek_pure (N : Nat) (hN : 0 < N) :
    (∀ ops : List RBOp, RBInv N (rbRunAll N RingBuffer.empty ops)) ∧
    (∀ (s : RingBufferState) (len : Nat),
      (RingBuffer.peek N s len).1 = s ∧
      (RingBuffer.peek N (RingBuffer.peek N s len).1 len).2 =
        (RingBuffer.peek N s len).2) := by
  constructor
  · intro ops
    exact rbRunAll_preserves_inv N hN ops RingBuffer.empty
      ⟨Nat.zero_le N, hN, hN, fun _ => ⟨rfl, rfl⟩⟩
  · intro s len
    exact ⟨peek_fst N s len, by rw [peek_fst]⟩

/-- Witness for C8 at the code's capacity `N = 4096` and a concrete
operation sequence. -/
theorem queue_invariant_and_peek_pure_witness :
    RBInv 4096 (rbRunAll 4096 RingBuffer.empty
      [RBOp.push [1, 2, 3] false, RBOp.peek 2, RBOp.pop 1, RBOp.consume 1,
       RBOp.clear]) :=
  (queue_invariant_and_peek_pure 4096 (by decide)).1 _

/-- **C6** (functional_correctness): pushing a 5000-byte buffer with
`overwrite = true` into an empty queue of capacity 4096 (head = tail =
count = 0) yields occupancy exactly 4096, and the queue contents read
oldest-to-newest equal the last 4096 bytes of the input. -/
theorem push_overflow_keeps_last_bytes (buf0 : Nat → Nat) (data : List Nat)
    (h : data.length = 5000) :
    ((RingBuffer.push 4096 ⟨buf0, 0, 0, 0⟩ data true).1).count = 4096 ∧
    RingBuffer.contents 4096 ((RingBuffer.push 4096 ⟨buf0, 0, 0, 0⟩ data true).1) =
      data.drop 904 := by
  have hstate : (RingBuffer.push 4096 ⟨buf0, 0, 0, 0⟩ data true).1 =
      { buf := RingBuffer.writeSeg (RingBuffer.writeSeg buf0 0 (data.take 4096)) 0
                 (data.drop 4096),
        head := 904, tail := 904, count := 4096 } := by
    simp [RingBuffer.push, h]
  refine ⟨by rw [hstate], ?_⟩
  rw [hstate]
  unfold RingBuffer.contents
  apply List.ext_getElem
  · simp [h]
  · intro i hi hi2
    simp only [List.length_map, List.length_range] at hi
    simp only [List.getElem_map, List.getElem_range]
    rw [List.getElem_drop]
    by_cases hcase : 904 + i < 4096
    · rw [Nat.mod_eq_of_lt hcase]
      rw [writeSeg_miss _ _ _ _ (by simp [h] <;> omega)]
      rw [writeSeg_hit _ _ _ _ (Nat.zero_le _) (by simp [h] <;> omega)]
      simp only [Nat.sub_zero]
      exact List.getElem_take _
    · have hmod : (904 + i) % 4096 = i - 3192 := by omega
      rw [hmod]
      rw [writeSeg_hit _ _ _ _ (Nat.zero_le _) (by simp [h] <;> omega)]
      simp only [Nat.sub_zero]
      rw [List.getElem_drop]
      have hidx : 4096 + (i - 3192) = 904 + i := by omega
      simp only [hidx]

/-- Witness for C6: a concrete 5000-byte input. -/
theorem push_overflow_keeps_last_bytes_witness :
    ((RingBuffer.push 4096 ⟨(fun _ => 0), 0, 0, 0⟩ (List.range 5000) true).1).count
      = 4096 ∧
    RingBuffer.contents 4096
        ((RingBuffer.push 4096 ⟨(fun _ => 0), 0, 0, 0⟩ (List.range 5000) true).1) =
      (List.range 5000).drop 904 :=
  push_overflow_keeps_last_bytes (fun _ => 0) (List.range 5000) (by rw [List.length_range])

/-!
## BLESerial TX sizing, pacing and the notification status handler
(src/Arduino_libraries/BLESerial/src/BLESerial.h, BLESerial.cpp)

Constants from `BLESerial.h`.  Header byte counts:
`BLE_SERIAL_ATT_HDR_BYTES = 3`, `BLE_SERIAL_L2CAP_HDR_BYTES = 4`,
`BLE_SERIAL_ENCRYPT_BYTES = 4`, `BLE_SERIAL_MAX_GATT = 512`.
-/

def MAX_SEND_INTERVAL_US : Nat := 1000000
def PROBE_AFTER_SUCCESSES : Nat := 64
def PROBE_CONFIRM_SUCCESSES : Nat := 48
def PROBE_STEP_US : Nat := 10
def PROBE_STEP_PCT : Nat := 2
def LKG_ESCALATE_AFTER_FAILS : Nat := 3
def LKG_ESCALATE_NUM : Nat := 103
def LKG_ESCALATE_DEN : Nat := 100
def COOL_SUCCESS_REQUIRED : Nat := 64
def ESCALATE_COOLDOWN_US : Nat := 1000000
def BLE_SERIAL_MAX_GATT : Nat := 512

/-- `enum class Mode` from BLESerial.h. -/
inductive Mode where
  | Fast
  | LowPower
  | LongRange
  | Balanced
deriving DecidableEq

/-- `BLESerial::computeTxChunkSize(mtu, llOctets, mode, encrypted)`
(BLESerial.cpp).  Arguments are `uint16_t`; the callers' values are below
65536, and on that domain all the source's `static_cast<uint16_t>` casts
are the identity.  The source declares the local `micPerPdu` as `const`
and then assigns it inside `if (encrypted)`; the evident intent (the MIC
costs 4 bytes per PDU when encryption is on) is transcribed. -/
def computeTxChunkSize (mtuVal llOctets : Nat) (modeVal : Mode)
    (encrypted : Bool) : Nat :=
  -- ATT value limit from MTU (exclude 3B ATT value header)
  let attPayload := if mtuVal > 3 then mtuVal - 3 else 0
  -- spec cap (common practice): 512 max attribute value
  let attPayload := if attPayload > BLE_SERIAL_MAX_GATT then BLE_SERIAL_MAX_GATT
                    else attPayload
  let hdrBytes := 4 + 3
  let micPerPdu := if encrypted then 4 else 0
  -- max payload that fits in ONE LL PDU
  let onePduMax := if llOctets > hdrBytes + micPerPdu then
                     llOctets - hdrBytes - micPerPdu
                   else 0
  -- max payload that fits in TWO LL PDUs (capped at 0xFFFF)
  let twoPduMax :=
    if llOctets > hdrBytes + micPerPdu then
      (let total := 2 * llOctets
       if total > hdrBytes + 2 * micPerPdu then
         (let usable := total - hdrBytes - 2 * micPerPdu
          if usable > 65535 then 65535 else usable)
       else onePduMax)
    else onePduMax
  -- choose limit by mode, cap by ATT payload, floor at 20
  let limit := if modeVal = Mode.Fast then twoPduMax else onePduMax
  let limit := if attPayload < limit then attPayload else limit
  if limit < 20 then 20 else limit

/-- `BLESerial::computeMinSendIntervalUs(chunkSize, llOctets, llTimeUs,
mode, encrypted)` (BLESerial.cpp).  In the source, the `if (encrypted)`
body declares a NEW `const uint16_t mic`, shadowing the outer `mic = 0`,
so the outer `mic` is 0 regardless of `encrypted`; the transcription keeps
that behaviour.  `numLLPdu` is truncated to `uint16_t` and the returned
product is `uint32_t` arithmetic, hence the `% 65536` / `% 2 ^ 32`. -/
def computeMinSendIntervalUs (chunkSize llOctets llTimeUsVal : Nat)
    (modeVal : Mode) (encrypted : Bool) : Nat :=
  let mic := 0
  let M := if llOctets > mic then llOctets - mic else 0
  if M = 0 then 1000000
  else
    -- number of LL PDUs required: ceil((chunk + 3 + 4) / M)
    let numer := chunkSize + 3 + 4
    let numLLPdu := ((numer + M - 1) / M) % 65536
    let guardNum : Nat :=
      match modeVal with
      | Mode.Fast => 103
      | Mode.Balanced => 108
      | Mode.LongRange => 115
      | Mode.LowPower => 112
    numLLPdu * llTimeUsVal % 2 ^ 32 * guardNum % 2 ^ 32 / 100

/-- `BLESerial::updateLowWaterMark(chunkSize)`; `txBuf.capacity() = 4096`. -/
def updateLowWaterMark (chunkSize : Nat) : Nat :=
  let lw := 2 * chunkSize
  let cap25 := 4096 / 4
  let lw := if lw > cap25 then cap25 else lw
  if lw < chunkSize then chunkSize else lw

/-- `toStage = txChunkSize <= avail ? txChunkSize : avail` from
`BLESerial::stageTx()` — the length of the chunk staged into the 512-byte
`pending` buffer. -/
def stageTxToStage (txChunkSize avail : Nat) : Nat :=
  if txChunkSize ≤ avail then txChunkSize else avail

/-- The BLESerial fields involved in TX pacing and the status handler
(`BLESerial.h` member variables).  `txAvailable` and the RX side are not
touched by any claim and are omitted. -/
structure Pacing where
  sendIntervalUs    : Nat
  minSendIntervalUs : Nat
  lkgIntervalUs     : Nat
  probing           : Bool
  probeSuccesses    : Nat
  probeFailures     : Nat
  lkgFailStreak     : Nat
  lastEscalateAtUs  : Nat
  recentlyBackedOff : Bool
  cooldownSuccess   : Nat
  successStreak     : Nat
  txChunkSize       : Nat
  mtuRetryCount     : Nat
  txOk              : Bool
  pendingLen        : Nat
  lowWater          : Nat
  mtu               : Nat
  llOctets          : Nat
  llTimeUs          : Nat
  mode              : Mode
  secure            : Bool
deriving DecidableEq

/-- The in-class initializers of `BLESerial.h` for these fields, with
`llOctets`/`llTimeUs` at the values `begin()` installs
(`LL_MAX_OCTETS = 251`, `LL_DEFAULT_TIME_US = 2120`). -/
def defaultPacing : Pacing :=
  { sendIntervalUs := 200, minSendIntervalUs := 200, lkgIntervalUs := 0,
    probing := false, probeSuccesses := 0, probeFailures := 0,
    lkgFailStreak := 0, lastEscalateAtUs := 0, recentlyBackedOff := false,
    cooldownSuccess := 0, successStreak := 0, txChunkSize := 20,
    mtuRetryCount := 0, txOk := false, pendingLen := 0, lowWater := 0,
    mtu := 23, llOctets := 251, llTimeUs := 2120, mode := Mode.Fast,
    secure := false }

/-- `BLESerial::resetTxRamp(forceToMin)` (BLESerial.cpp). -/
def resetTxRamp (forceToMin : Bool) (s : Pacing) : Pacing :=
  let send := if forceToMin = true ∨ s.sendIntervalUs = 0 ∨
                 s.sendIntervalUs < s.minSendIntervalUs
              then s.minSendIntervalUs else s.sendIntervalUs
  { s with probing := false, probeSuccesses := 0, probeFailures := 0,
           lkgFailStreak := 0, recentlyBackedOff := false,
           cooldownSuccess := 0, successStreak := 0,
           sendIntervalUs := send, lkgIntervalUs := send }

/-- `BLESerial::recomputeTxTiming()` (BLESerial.cpp).  The `txAvailable`
refresh (a producer-side flag no claim mentions) and the
`onPacingChanged` callback are omitted; the final `resetTxRamp(true)` is
the source's last step. -/
def recomputeTxTiming (s : Pacing) : Pacing :=
  let chunk := computeTxChunkSize s.mtu s.llOctets s.mode s.secure
  let minI := computeMinSendIntervalUs chunk s.llOctets s.llTimeUs s.mode s.secure
  -- keep current pacing at or above the floor
  let send := if s.sendIntervalUs < minI then minI else s.sendIntervalUs
  let lw := updateLowWaterMark chunk
  -- keep LKG coherent with the new floor
  let lkg := if s.lkgIntervalUs = 0 ∨ s.lkgIntervalUs < minI then send
             else s.lkgIntervalUs
  let lkg := if s.probing = false ∧ lkg > send then send else lkg
  resetTxRamp true
    { s with txChunkSize := chunk, minSendIntervalUs := minI,
             sendIntervalUs := send, lowWater := lw, lkgIntervalUs := lkg }

/-- Pacing state established at connection setup: `onConnect` installs
`llOctets`/`llTimeUs` and calls `recomputeTxTiming()` on the
default-constructed object. -/
def initPacing : Pacing := recomputeTxTiming defaultPacing

/-- `TxCallbacks::isOkOrDone` — 0 (OK) or 14 (`BLE_HS_EDONE`). -/
def isOkOrDone (code : Int) : Bool := code == 0 || code == 14

/-- `TxCallbacks::isMsgSize` — 4 (`BLE_HS_EMSGSIZE`). -/
def isMsgSize (code : Int) : Bool := code == 4

/-- `TxCallbacks::isBadData` — 10 (`BLE_HS_EBADDATA`). -/
def isBadData (code : Int) : Bool := code == 10

/-- `TxCallbacks::isAppError` — 9 (`BLE_HS_EAPP`). -/
def isAppError (code : Int) : Bool := code == 9

/-- `TxCallbacks::isCongestion` — EAGAIN/EALREADY/ENOMEM/EBUSY/
ENOMEM_EVT/ESTALLED/EPREEMPTED/ETIMEOUT/ETIMEOUT_HCI. -/
def isCongestion (code : Int) : Bool :=
  code == 1 || code == 2 || code == 6 || code == 15 || code == 20 ||
  code == 31 || code == 29 || code == 13 || code == 19

/-- `TxCallbacks::isDisconnectedOrEOS` — 7 (`BLE_HS_ENOTCONN`) or 11
(`BLE_HS_EOS`). -/
def isDisconnectedOrEOS (code : Int) : Bool := code == 7 || code == 11

/-- Environment read by the congestion branch of `onStatus`:
`micros()` and `txBuf.available()`. -/
structure StatusEnv where
  nowUs      : Nat
  txBufAvail : Nat

/-- Wrapping `uint32_t` subtraction `a - b`. -/
def u32sub (a b : Nat) : Nat := (a % 2 ^ 32 + 2 ^ 32 - b % 2 ^ 32) % 2 ^ 32

/-- Candidate probe interval from the success path of
`TxCallbacks::onStatus`: step down by `max(PROBE_STEP_US, send * 2 / 100)`
and clamp at the floor. -/
def probeCand (send minI : Nat) : Nat :=
  let stepAbs := PROBE_STEP_US
  let stepPct := send * PROBE_STEP_PCT % 2 ^ 32 / 100
  let step := if stepPct > stepAbs then stepPct else stepAbs
  let cand := if send > step then send - step else minI
  if cand < minI then minI else cand

/-- Success path of `TxCallbacks::onStatus` (code OK/EDONE). -/
def onSuccess (s : Pacing) : Pacing :=
  let s := { s with txOk := true, mtuRetryCount := 0 }
  -- cooldown after a backoff before probing again
  if s.recentlyBackedOff = true then
    let cool := s.cooldownSuccess + 1
    if cool ≥ COOL_SUCCESS_REQUIRED then
      { s with recentlyBackedOff := false, cooldownSuccess := 0,
               successStreak := 0, lkgFailStreak := 0 }
    else { s with cooldownSuccess := cool }
  -- probe success handling
  else if s.probing = true then
    let ps := (s.probeSuccesses + 1) % 65536
    if ps ≥ PROBE_CONFIRM_SUCCESSES then
      { s with lkgIntervalUs := s.sendIntervalUs, probing := false,
               probeSuccesses := 0, probeFailures := 0, lkgFailStreak := 0,
               successStreak := 0 }
    else { s with probeSuccesses := ps }
  -- not probing: clear fail streak and maybe start a probe
  else
    let s := { s with lkgFailStreak := 0 }
    let ss := s.successStreak + 1
    if ss ≥ PROBE_AFTER_SUCCESSES then
      let s := { s with successStreak := 0, lkgIntervalUs := s.sendIntervalUs }
      let cand := probeCand s.sendIntervalUs s.minSendIntervalUs
      if cand < s.sendIntervalUs then
        { s with sendIntervalUs := cand, probing := true,
                 probeSuccesses := 0, probeFailures := 0 }
      else s
    else { s with successStreak := ss }

/-- EMSGSIZE branch of `TxCallbacks::onStatus`: halve the chunk (floor 20)
for up to `kMtuRetryMax = 3` retries, then fall back to 20 bytes, then
(chunk already 20) disconnect; the last two discard the staged chunk. -/
def onMsgSize (s : Pacing) : Pacing :=
  let rc := s.mtuRetryCount + 1
  if rc ≤ 3 then
    let chunk := max 20 (s.txChunkSize / 2)
    let minI := computeMinSendIntervalUs chunk s.llOctets s.llTimeUs s.mode s.secure
    let send := if s.sendIntervalUs < minI then minI else s.sendIntervalUs
    { s with mtuRetryCount := rc, txChunkSize := chunk,
             lowWater := updateLowWaterMark chunk,
             minSendIntervalUs := minI, sendIntervalUs := send }
  else
    if s.txChunkSize > 20 then
      let minI := computeMinSendIntervalUs 20 s.llOctets s.llTimeUs s.mode s.secure
      let send := if s.sendIntervalUs < minI then minI else s.sendIntervalUs
      { s with txChunkSize := 20, lowWater := updateLowWaterMark 20,
               minSendIntervalUs := minI, sendIntervalUs := send,
               mtuRetryCount := 0, pendingLen := 0 }
    else
      { s with mtuRetryCount := 0, pendingLen := 0 }

/-- Escalated last-known-good interval from the congestion branch of
`TxCallbacks::onStatus`: relax by the factor 103/100, clamped to
`[minSendIntervalUs, MAX_SEND_INTERVAL_US]`. -/
def escalatedLkg (lkg minI : Nat) : Nat :=
  let next := lkg * LKG_ESCALATE_NUM % 2 ^ 32 / LKG_ESCALATE_DEN
  let next := if next < minI then minI else next
  if next > MAX_SEND_INTERVAL_US then MAX_SEND_INTERVAL_US else next

/-- Congestion branch of `TxCallbacks::onStatus` (ENOMEM/EBUSY/timeouts). -/
def onCongestion (env : StatusEnv) (s : Pacing) : Pacing :=
  let s := { s with successStreak := 0, recentlyBackedOff := true,
                    cooldownSuccess := 0 }
  if s.probing = true then
    { s with probing := false, probeFailures := (s.probeFailures + 1) % 256,
             sendIntervalUs := s.lkgIntervalUs, lkgFailStreak := 0 }
  else
    let lfs := (s.lkgFailStreak + 1) % 256
    if lfs ≥ LKG_ESCALATE_AFTER_FAILS then
      let now := env.nowUs % 2 ^ 32
      if u32sub now s.lastEscalateAtUs ≥ ESCALATE_COOLDOWN_US ∧
         env.txBufAvail ≥ s.lowWater then
        let next := escalatedLkg s.lkgIntervalUs s.minSendIntervalUs
        { s with lastEscalateAtUs := now, lkgFailStreak := 0,
                 lkgIntervalUs := next, sendIntervalUs := next }
      else { s with lkgFailStreak := lfs }
    else { s with lkgFailStreak := lfs }

/-- Disconnect/EOS branch of `TxCallbacks::onStatus`. -/
def onDisconnectStatus (s : Pacing) : Pacing :=
  { s with successStreak := 0, recentlyBackedOff := false,
           cooldownSuccess := 0, probing := false, probeSuccesses := 0,
           probeFailures := 0, lkgFailStreak := 0,
           sendIntervalUs := MAX_SEND_INTERVAL_US,
           lkgIntervalUs := MAX_SEND_INTERVAL_US }

/-- Unclassified tail of `TxCallbacks::onStatus`: drop the probe if
probing, otherwise no pacing change. -/
def onUnclassified (s : Pacing) : Pacing :=
  if s.probing = true then
    { s with probing := false, sendIntervalUs := s.lkgIntervalUs,
             lkgFailStreak := 0 }
  else s

/-- `TxCallbacks::onStatus(ch, code)` (BLESerial.cpp): the completion
status handler's effect on the pacing state. -/
def onStatus (code : Int) (env : StatusEnv) (s : Pacing) : Pacing :=
  if isOkOrDone code then onSuccess s
  else if isMsgSize code then onMsgSize s
  else if isBadData code then { s with pendingLen := 0 }
  else if isAppError code then { s with pendingLen := 0 }
  else if isCongestion code then onCongestion env s
  else if isDisconnectedOrEOS code then onDisconnectStatus s
  else onUnclassified s

/-- Pacing states reachable from initialization by the pacing
transitions: completions of every status class, `resetTxRamp`, and
`recomputeTxTiming`. -/
inductive Reach : Pacing → Prop where
  | init : Reach initPacing
  | status (code : Int) (env : StatusEnv) {s : Pacing} :
      Reach s → Reach (onStatus code env s)
  | ramp (forceToMin : Bool) {s : Pacing} :
      Reach s → Reach (resetTxRamp forceToMin s)
  | recompute {s : Pacing} : Reach s → Reach (recomputeTxTiming s)

/-- The spec's pacing-state invariant. -/
def PacingInv (s : Pacing) : Prop :=
  s.minSendIntervalUs ≤ s.sendIntervalUs ∧
  s.minSendIntervalUs ≤ s.lkgIntervalUs ∧
  (s.probing = true → s.sendIntervalUs < s.lkgIntervalUs)

/-- Inductive strengthening of `PacingInv`: the link parameters are the
ones installed at initialization (none of the pacing transitions touches
them), the chunk stays in `[20, 512]`, the floor is the one computed from
the current chunk, and a probing state has a cleared fail streak. -/
def PacingFull (s : Pacing) : Prop :=
  PacingInv s ∧
  s.mtu = 23 ∧ s.llOctets = 251 ∧ s.llTimeUs = 2120 ∧ s.mode = Mode.Fast ∧
  s.secure = false ∧
  20 ≤ s.txChunkSize ∧ s.txChunkSize ≤ 512 ∧
  s.minSendIntervalUs =
    computeMinSendIntervalUs s.txChunkSize 251 2120 Mode.Fast false ∧
  (s.probing = true → s.lkgFailStreak = 0)

instance (s : Pacing) : Decidable (PacingInv s) := by
  unfold PacingInv; infer_instance

instance (s : Pacing) : Decidable (PacingFull s) := by
  unfold PacingFull; infer_instance

lemma computeMin_frozen (c : Nat) :
    computeMinSendIntervalUs c 251 2120 Mode.Fast false =
      (c + 3 + 4 + 251 - 1) / 251 % 65536 * 2120 % 2 ^ 32 * 103 % 2 ^ 32 / 100 :=
  rfl

lemma computeMin_frozen_small {c : Nat} (hc : c ≤ 512) :
    computeMinSendIntervalUs c 251 2120 Mode.Fast false =
      (c + 3 + 4 + 251 - 1) / 251 * 2120 * 103 / 100 := by
  rw [computeMin_frozen]
  have h1 : (c + 3 + 4 + 251 - 1) / 251 ≤ 3 := by omega
  have h2 : (c + 3 + 4 + 251 - 1) / 251 % 65536 = (c + 3 + 4 + 251 - 1) / 251 := by
    omega
  rw [h2]
  have h3 : (c + 3 + 4 + 251 - 1) / 251 * 2120 % 2 ^ 32 =
      (c + 3 + 4 + 251 - 1) / 251 * 2120 :=
    Nat.mod_eq_of_lt (lt_of_le_of_lt (Nat.mul_le_mul_right _ h1) (by norm_num))
  rw [h3]
  have h4 : (c + 3 + 4 + 251 - 1) / 251 * 2120 * 103 % 2 ^ 32 =
      (c + 3 + 4 + 251 - 1) / 251 * 2120 * 103 :=
    Nat.mod_eq_of_lt (lt_of_le_of_lt
      (Nat.mul_le_mul_right _ (Nat.mul_le_mul_right _ h1)) (by norm_num))
  rw [h4]

lemma computeMin_mono {c d : Nat} (hd : d ≤ c) (hc : c ≤ 512) :
    computeMinSendIntervalUs d 251 2120 Mode.Fast false ≤
    computeMinSendIntervalUs c 251 2120 Mode.Fast false := by
  rw [computeMin_frozen_small (le_trans hd hc), computeMin_frozen_small hc]
  omega

lemma computeMin_le_MAX {c : Nat} (hc : c ≤ 512) :
    computeMinSendIntervalUs c 251 2120 Mode.Fast false ≤ MAX_SEND_INTERVAL_US := by
  rw [computeMin_frozen_small hc]
  unfold MAX_SEND_INTERVAL_US
  omega

lemma pacingFull_initPacing : PacingFull initPacing := by decide

lemma probeCand_ge (send minI : Nat) : minI ≤ probeCand send minI := by
  unfold probeCand
  dsimp only
  split_ifs <;> omega

lemma pacingFull_onSuccess {s : Pacing} (h : PacingFull s) :
    PacingFull (onSuccess s) := by
  obtain ⟨⟨h1, h2, h3⟩, hmtu, hllo, hllt, hmode, hsec, hc1, hc2, hcoh, hstreak⟩ := h
  unfold onSuccess
  dsimp only
  by_cases hrb : s.recentlyBackedOff = true
  · rw [if_pos hrb]
    split
    · exact ⟨⟨h1, h2, h3⟩, hmtu, hllo, hllt, hmode, hsec, hc1, hc2, hcoh,
        fun _ => rfl⟩
    · exact ⟨⟨h1, h2, h3⟩, hmtu, hllo, hllt, hmode, hsec, hc1, hc2, hcoh, hstreak⟩
  · rw [if_neg hrb]
    by_cases hp : s.probing = true
    · rw [if_pos hp]
      split
      · exact ⟨⟨h1, h1, fun hx => absurd hx Bool.false_ne_true⟩,
          hmtu, hllo, hllt, hmode, hsec, hc1, hc2, hcoh,
          fun hx => absurd hx Bool.false_ne_true⟩
      · exact ⟨⟨h1, h2, h3⟩, hmtu, hllo, hllt, hmode, hsec, hc1, hc2, hcoh, hstreak⟩
    · rw [if_neg hp]
      split
      · split
        · rename_i hcand
          exact ⟨⟨probeCand_ge _ _, h1, fun _ => hcand⟩,
            hmtu, hllo, hllt, hmode, hsec, hc1, hc2, hcoh, fun _ => rfl⟩
        · exact ⟨⟨h1, h1, fun hx => absurd hx hp⟩,
            hmtu, hllo, hllt, hmode, hsec, hc1, hc2, hcoh, fun hx => absurd hx hp⟩
      · exact ⟨⟨h1, h2, fun hx => absurd hx hp⟩,
          hmtu, hllo, hllt, hmode, hsec, hc1, hc2, hcoh, fun _ => rfl⟩

lemma pacingFull_onMsgSize {s : Pacing} (h : PacingFull s) :
    PacingFull (onMsgSize s) := by
  obtain ⟨⟨h1, h2, h3⟩, hmtu, hllo, hllt, hmode, hsec, hc1, hc2, hcoh, hstreak⟩ := h
  unfold onMsgSize
  rw [hllo, hllt, hmode, hsec]
  dsimp only
  have hmono : computeMinSendIntervalUs (max 20 (s.txChunkSize / 2)) 251 2120
      Mode.Fast false ≤ s.minSendIntervalUs := by
    rw [hcoh]; exact computeMin_mono (by omega) hc2
  have hmono20 : computeMinSendIntervalUs 20 251 2120 Mode.Fast false ≤
      s.minSendIntervalUs := by
    rw [hcoh]; exact computeMin_mono hc1 hc2
  split
  · refine ⟨⟨?_, ?_, ?_⟩, hmtu, rfl, rfl, rfl, rfl, ?_, ?_, rfl, hstreak⟩
    · dsimp only
      split <;> omega
    · dsimp only
      omega
    · dsimp only
      intro hx
      have := h3 hx
      split <;> omega
    · dsimp only
      omega
    · dsimp only
      omega
  · split
    · refine ⟨⟨?_, ?_, ?_⟩, hmtu, rfl, rfl, rfl, rfl, Nat.le_refl 20,
        by norm_num, rfl, hstreak⟩
      · dsimp only
        split <;> omega
      · dsimp only
        omega
      · dsimp only
        intro hx
        have := h3 hx
        split <;> omega
    · exact ⟨⟨h1, h2, h3⟩, hmtu, rfl, rfl, rfl, rfl, hc1, hc2, hcoh, hstreak⟩

lemma escalatedLkg_ge {lkg minI : Nat} (h : minI ≤ MAX_SEND_INTERVAL_US) :
    minI ≤ escalatedLkg lkg minI := by
  unfold escalatedLkg
  dsimp only
  split_ifs <;> omega

lemma pacingFull_onCongestion {s : Pacing} (env : StatusEnv) (h : PacingFull s) :
    PacingFull (onCongestion env s) := by
  obtain ⟨⟨h1, h2, h3⟩, hmtu, hllo, hllt, hmode, hsec, hc1, hc2, hcoh, hstreak⟩ := h
  have hmax : s.minSendIntervalUs ≤ MAX_SEND_INTERVAL_US := by
    rw [hcoh]; exact computeMin_le_MAX hc2
  unfold onCongestion
  dsimp only
  by_cases hp : s.probing = true
  · rw [if_pos hp]
    exact ⟨⟨h2, h2, fun hx => absurd hx Bool.false_ne_true⟩, hmtu, hllo, hllt,
      hmode, hsec, hc1, hc2, hcoh, fun hx => absurd hx Bool.false_ne_true⟩
  · rw [if_neg hp]
    split
    · split
      · exact ⟨⟨escalatedLkg_ge hmax, escalatedLkg_ge hmax, fun hx => absurd hx hp⟩,
          hmtu, hllo, hllt, hmode, hsec, hc1, hc2, hcoh, fun _ => rfl⟩
      · exact ⟨⟨h1, h2, fun hx => absurd hx hp⟩, hmtu, hllo, hllt, hmode, hsec,
          hc1, hc2, hcoh, fun hx => absurd hx hp⟩
    · exact ⟨⟨h1, h2, fun hx => absurd hx hp⟩, hmtu, hllo, hllt, hmode, hsec,
        hc1, hc2, hcoh, fun hx => absurd hx hp⟩

lemma pacingFull_pendingDrop {s : Pacing} (h : PacingFull s) :
    PacingFull { s with pendingLen := 0 } := by
  obtain ⟨⟨h1, h2, h3⟩, hmtu, hllo, hllt, hmode, hsec, hc1, hc2, hcoh, hstreak⟩ := h
  exact ⟨⟨h1, h2, h3⟩, hmtu, hllo, hllt, hmode, hsec, hc1, hc2, hcoh, hstreak⟩

lemma pacingFull_onDisconnectStatus {s : Pacing} (h : PacingFull s) :
    PacingFull (onDisconnectStatus s) := by
  obtain ⟨⟨h1, h2, h3⟩, hmtu, hllo, hllt, hmode, hsec, hc1, hc2, hcoh, hstreak⟩ := h
  have hmax : s.minSendIntervalUs ≤ MAX_SEND_INTERVAL_US := by
    rw [hcoh]; exact computeMin_le_MAX hc2
  exact ⟨⟨hmax, hmax, fun hx => absurd hx Bool.false_ne_true⟩, hmtu, hllo, hllt,
    hmode, hsec, hc1, hc2, hcoh, fun hx => absurd hx Bool.false_ne_true⟩

lemma pacingFull_onUnclassified {s : Pacing} (h : PacingFull s) :
    PacingFull (onUnclassified s) := by
  obtain ⟨⟨h1, h2, h3⟩, hmtu, hllo, hllt, hmode, hsec, hc1, hc2, hcoh, hstreak⟩ := h
  unfold onUnclassified
  by_cases hp : s.probing = true
  · rw [if_pos hp]
    exact ⟨⟨h2, h2, fun hx => absurd hx Bool.false_ne_true⟩, hmtu, hllo, hllt,
      hmode, hsec, hc1, hc2, hcoh, fun _ => rfl⟩
  · rw [if_neg hp]
    exact ⟨⟨h1, h2, h3⟩, hmtu, hllo, hllt, hmode, hsec, hc1, hc2, hcoh, hstreak⟩

lemma pacingFull_resetTxRamp {s : Pacing} (f : Bool) (h : PacingFull s) :
    PacingFull (resetTxRamp f s) := by
  obtain ⟨⟨h1, h2, h3⟩, hmtu, hllo, hllt, hmode, hsec, hc1, hc2, hcoh, hstreak⟩ := h
  unfold resetTxRamp
  dsimp only
  refine ⟨⟨?_, ?_, fun hx => absurd hx Bool.false_ne_true⟩, hmtu, hllo, hllt,
    hmode, hsec, hc1, hc2, hcoh, fun hx => absurd hx Bool.false_ne_true⟩
  · dsimp only
    split <;> omega
  · dsimp only
    split <;> omega

lemma pacingFull_recompute {s : Pacing} (h : PacingFull s) :
    PacingFull (recomputeTxTiming s) := by
  obtain ⟨⟨h1, h2, h3⟩, hmtu, hllo, hllt, hmode, hsec, hc1, hc2, hcoh, hstreak⟩ := h
  unfold recomputeTxTiming
  rw [hmtu, hllo, hllt, hmode, hsec]
  dsimp only
  unfold resetTxRamp
  dsimp only
  rw [if_pos (Or.inl rfl)]
  refine ⟨⟨Nat.le_refl _, Nat.le_refl _, fun hx => absurd hx Bool.false_ne_true⟩,
    rfl, rfl, rfl, rfl, rfl, ?_, ?_, rfl,
    fun hx => absurd hx Bool.false_ne_true⟩
  · dsimp only
    decide
  · dsimp only
    decide

lemma pacingFull_onStatus {s : Pacing} (code : Int) (env : StatusEnv)
    (h : PacingFull s) : PacingFull (onStatus code env s) := by
  unfold onStatus
  split
  · exact pacingFull_onSuccess h
  · split
    · exact pacingFull_onMsgSize h
    · split
      · exact pacingFull_pendingDrop h
      · split
        · exact pacingFull_pendingDrop h
        · split
          · exact pacingFull_onCongestion env h
          · split
            · exact pacingFull_onDisconnectStatus h
            · exact pacingFull_onUnclassified h

/-- Every state reachable from initialization by the pacing transitions
satisfies the full inductive invariant. -/
lemma reach_pacingFull {s : Pacing} (h : Reach s) : PacingFull s := by
  induction h with
  | init => exact pacingFull_initPacing
  | status code env _ ih => exact pacingFull_onStatus code env ih
  | ramp f _ ih => exact pacingFull_resetTxRamp f ih
  | recompute _ ih => exact pacingFull_recompute ih

/-- **C3** (invariants): the pacing-state invariant
`minSendIntervalUs ≤ sendIntervalUs`, `lkgIntervalUs ≥ minSendIntervalUs`
and `probing ⇒ sendIntervalUs < lkgIntervalUs` holds after initialization
(`Reach.init`) and at every state obtained from it by the pacing
transitions: the status handler on any completion code (covering the
success, size-mismatch, bad-data, congestion, disconnect and unclassified
branches), `resetTxRamp` with either argument, and `recomputeTxTiming`. -/
theorem pacing_invariant_holds (s : Pacing) (h : Reach s) : PacingInv s :=
  (reach_pacingFull h).1

/-- Witness for C3: the invariant at the initial state. -/
theorem pacing_invariant_holds_witness : PacingInv initPacing :=
  pacing_invariant_holds initPacing Reach.init

/-- **C4** (functional_correctness): for every pacing state with
`probing = true`, a congestion completion yields `sendIntervalUs` equal to
the pre-completion `lkgIntervalUs`, `probing = false`,
`recentlyBackedOff = true`, and cooldown counter and success streak 0. -/
theorem congestion_reverts_probe (s : Pacing) (env : StatusEnv) (code : Int)
    (hc : isCongestion code = true) (hp : s.probing = true) :
    (onStatus code env s).sendIntervalUs = s.lkgIntervalUs ∧
    (onStatus code env s).probing = false ∧
    (onStatus code env s).recentlyBackedOff = true ∧
    (onStatus code env s).cooldownSuccess = 0 ∧
    (onStatus code env s).successStreak = 0 := by
  have hstat : onStatus code env s = onCongestion env s := by
    simp only [isCongestion, Bool.or_eq_true, beq_iff_eq, or_assoc] at hc
    rcases hc with h | h | h | h | h | h | h | h | h <;> subst h <;> rfl
  rw [hstat]
  unfold onCongestion
  dsimp only
  rw [if_pos hp]
  exact ⟨rfl, rfl, rfl, rfl, rfl⟩

/-- A concrete probing state used to witness C4. -/
def probingState : Pacing :=
  { defaultPacing with probing := true, lkgIntervalUs := 300 }

/-- Witness for C4: a congestion completion (code 6, `BLE_HS_ENOMEM`)
while probing. -/
theorem congestion_reverts_probe_witness :
    (onStatus 6 { nowUs := 0, txBufAvail := 0 } probingState).sendIntervalUs =
      probingState.lkgIntervalUs ∧
    (onStatus 6 { nowUs := 0, txBufAvail := 0 } probingState).probing = false ∧
    (onStatus 6 { nowUs := 0, txBufAvail := 0 } probingState).recentlyBackedOff
      = true ∧
    (onStatus 6 { nowUs := 0, txBufAvail := 0 } probingState).cooldownSuccess
      = 0 ∧
    (onStatus 6 { nowUs := 0, txBufAvail := 0 } probingState).successStreak
      = 0 :=
  congestion_reverts_probe probingState _ 6 (by decide) (by decide)

/-- **C9** (frame_effect): on an unclassified completion from a reachable
state: if probing, the handler reverts `sendIntervalUs` to
`lkgIntervalUs`, clears `probing`, and leaves the fail streak's value
unchanged (in every reachable probing state it is 0 and stays 0); if not
probing, the whole state is left exactly unchanged. -/
theorem unclassified_completion_effect (s : Pacing) (code : Int)
    (env : StatusEnv) (hr : Reach s)
    (h0 : isOkOrDone code = false) (h1 : isMsgSize code = false)
    (h2 : isBadData code = false) (h3 : isAppError code = false)
    (h4 : isCongestion code = false) (h5 : isDisconnectedOrEOS code = false) :
    (s.probing = true →
      (onStatus code env s).sendIntervalUs = s.lkgIntervalUs ∧
      (onStatus code env s).probing = false ∧
      (onStatus code env s).lkgFailStreak = s.lkgFailStreak) ∧
    (s.probing = false → onStatus code env s = s) := by
  have hstat : onStatus code env s = onUnclassified s := by
    unfold onStatus
    simp only [h0, h1, h2, h3, h4, h5, Bool.false_eq_true, if_false]
  rw [hstat]
  constructor
  · intro hp
    unfold onUnclassified
    rw [if_pos hp]
    obtain ⟨_, _, _, _, _, _, _, _, _, hstreak⟩ := reach_pacingFull hr
    exact ⟨rfl, rfl, (hstreak hp).symm⟩
  · intro hp
    unfold onUnclassified
    rw [if_neg (by rw [hp]; exact Bool.false_ne_true)]

/-- Witness for C9: code 3 (`BLE_HS_EINVAL`) is unclassified, and the
initial state is not probing, so the handler is the identity there. -/
theorem unclassified_completion_effect_witness :
    onStatus 3 { nowUs := 0, txBufAvail := 0 } initPacing = initPacing :=
  (unclassified_completion_effect initPacing 3 { nowUs := 0, txBufAvail := 0 }
    Reach.init (by decide) (by decide) (by decide) (by decide) (by decide)
    (by decide)).2 (by decide)

/-- A concrete state (chunk size 100, fresh retry budget) used for C1. -/
def badDataState : Pacing := { defaultPacing with txChunkSize := 100 }

/-- Counterexample to C1 as stated: on a malformed-payload completion
(code 10, `BLE_HS_EBADDATA`) from a state with chunk size 100 and an
untouched retry budget, the handler leaves `txChunkSize` at 100 — no
~10% shrink (which would make the chunk size strictly smaller) occurs. -/
theorem baddata_does_not_shrink_chunk :
    (onStatus 10 { nowUs := 0, txBufAvail := 0 } badDataState).txChunkSize
      = 100 ∧
    ¬ (onStatus 10 { nowUs := 0, txBufAvail := 0 } badDataState).txChunkSize <
        badDataState.txChunkSize :=
  ⟨by decide, by decide⟩

/-- **C1** (amended): on a malformed-payload completion the handler
discards the staged chunk (`pendingLen := 0`) so it is re-staged, and
changes nothing else — the chunk size, the retry counter and every pacing
field are left unchanged; no chunk shrink happens on this branch. -/
theorem baddata_drops_frame_only (s : Pacing) (env : StatusEnv) (code : Int)
    (h : isBadData code = true) :
    onStatus code env s = { s with pendingLen := 0 } := by
  have hc : code = 10 := by
    simp only [isBadData, beq_iff_eq] at h
    exact h
  subst hc
  rfl

/-- Witness for C1 (amended) at the concrete bad-data code 10. -/
theorem baddata_drops_frame_only_witness :
    onStatus 10 { nowUs := 0, txBufAvail := 0 } badDataState =
      { badDataState with pendingLen := 0 } :=
  baddata_drops_frame_only badDataState _ 10 (by decide)

set_option maxHeartbeats 1000000 in
/-- **C10** (safety): for every `uint16` MTU and link-fragment size, every
mode, encrypted or not, `computeTxChunkSize` returns a value between 20
and 512 = `BLE_SERIAL_MAX_GATT`; consequently the staged length chosen by
`stageTx` (`txChunkSize ≤ avail ? txChunkSize : avail`) never exceeds the
512-byte `pending` staging buffer. -/
theorem chunk_size_bounds (mtuVal llOctets : Nat) (modeVal : Mode)
    (encrypted : Bool) (hm : mtuVal < 65536) (hl : llOctets < 65536) :
    20 ≤ computeTxChunkSize mtuVal llOctets modeVal encrypted ∧
    computeTxChunkSize mtuVal llOctets modeVal encrypted ≤
      BLE_SERIAL_MAX_GATT ∧
    ∀ avail : Nat,
      stageTxToStage (computeTxChunkSize mtuVal llOctets modeVal encrypted)
        avail ≤ BLE_SERIAL_MAX_GATT := by
  have hb : 20 ≤ computeTxChunkSize mtuVal llOctets modeVal encrypted ∧
      computeTxChunkSize mtuVal llOctets modeVal encrypted ≤ 512 := by
    unfold computeTxChunkSize BLE_SERIAL_MAX_GATT
    dsimp only
    split_ifs <;> omega
  refine ⟨hb.1, ?_, ?_⟩
  · unfold BLE_SERIAL_MAX_GATT
    omega
  · intro avail
    unfold stageTxToStage BLE_SERIAL_MAX_GATT
    have := hb.2
    split <;> omega

/-- Witness for C10 at the smallest negotiated link values. -/
theorem chunk_size_bounds_witness :
    20 ≤ computeTxChunkSize 23 27 Mode.Balanced true ∧
    computeTxChunkSize 23 27 Mode.Balanced true ≤ BLE_SERIAL_MAX_GATT ∧
    ∀ avail : Nat,
      stageTxToStage (computeTxChunkSize 23 27 Mode.Balanced true) avail ≤
        BLE_SERIAL_MAX_GATT :=
  chunk_size_bounds 23 27 Mode.Balanced true (by decide) (by decide)

/-- **C5** (numerical): for chunk size 180, link fragment size 244,
per-fragment time 1060, mode Balanced (guard 108/100), not encrypted:
one fragment is needed (ceil((180+7)/244) = 1 since 187 < 244) and the
result is `1 * 1060 * 108 / 100 = 1144`, i.e. approximately 1145
(the spec's ≈1145; exact integer value 1144, within 1). -/
theorem min_interval_balanced_example :
    computeMinSendIntervalUs 180 244 1060 Mode.Balanced false =
      (180 + 7 + 244 - 1) / 244 * 1060 * 108 / 100 ∧
    (180 + 7 + 244 - 1) / 244 = 1 ∧
    computeMinSendIntervalUs 180 244 1060 Mode.Balanced false = 1144 ∧
    1145 - computeMinSendIntervalUs 180 244 1060 Mode.Balanced false ≤ 1 :=
  ⟨by decide, by decide, by decide, by decide⟩

end SerialUI
